import Mathlib

/-!
Verification of the thermal cable-rating calculators of this repository
(IEC 60287 style cable model, planar U-value calculator, mutual heating
model).  Python floats are modelled as real numbers; Python exceptions
are modelled with `Except`.  All definitions are shallow embeddings of
the corresponding Python functions, translated statement by statement.
-/

noncomputable section

open Real

/-- Exceptions that the embedded Python code can raise:
`zeroDivisionError` models a float division by zero, `valueError`
models a `ValueError` raised by explicit validation code. -/
inductive PyError where
  | zeroDivisionError : PyError
  | valueError : PyError
  deriving Repr, DecidableEq

/-- Embedding of the `CableLayer` dataclass of
`cable_model_iec60287.py` (name, material, radii in mm, thermal
conductivity in W/(m K), resistivity in Ohm mm^2/m, temperature
coefficient in 1/K). -/
structure CableLayer where
  name : String
  material : String
  inner_radius : ℝ
  outer_radius : ℝ
  thermal_conductivity : ℝ
  resistivity : ℝ := 0
  temp_coefficient : ℝ := 0
  deriving Inhabited

/-- Embedding of `CableLayer.get_thermal_resistance` (lines 22-42).
The source returns `0.0` when `inner_radius <= 0` or
`outer_radius <= inner_radius`; otherwise it computes
`rho_thermal = 1.0 / thermal_conductivity` (a Python float division,
which raises `ZeroDivisionError` when the conductivity is zero) and
returns `rho_thermal * log(outer/inner) / (2 pi)`. -/
def CableLayer.get_thermal_resistance (l : CableLayer) : Except PyError ℝ :=
  if l.inner_radius ≤ 0 ∨ l.outer_radius ≤ l.inner_radius then
    .ok 0
  else if l.thermal_conductivity = 0 then
    .error .zeroDivisionError
  else
    .ok (1 / l.thermal_conductivity * Real.log (l.outer_radius / l.inner_radius) / (2 * Real.pi))

/-- Embedding of `CableLayer.get_electrical_resistance` (lines 44-72):
returns `0.0` when `resistivity <= 0` or the annular cross section
`area = pi (r_o^2 - r_i^2)` is non-positive, otherwise
`resistivity * length / area * (1 + temp_coefficient * (temperature - 20))`. -/
def CableLayer.get_electrical_resistance (l : CableLayer) (length : ℝ := 1)
    (temperature : ℝ := 20) : ℝ :=
  if l.resistivity ≤ 0 then 0
  else
    let area := Real.pi * (l.outer_radius ^ 2 - l.inner_radius ^ 2)
    if area ≤ 0 then 0
    else l.resistivity * length / area * (1 + l.temp_coefficient * (temperature - 20))

/-- Embedding of the mutable `CableConfiguration` object of
`cable_model_iec60287.py` (lines 75-87). -/
structure CableConfiguration where
  name : String
  layers : List CableLayer
  external_layers : List CableLayer
  current : ℝ
  ambient_temp : ℝ
  max_conductor_temp : ℝ
  deriving Inhabited

namespace CableConfiguration

/-- Embedding of `CableConfiguration.get_conductor_layer` (lines 97-101):
raises `ValueError` on an empty layer list, otherwise returns the first
layer. -/
def get_conductor_layer (cfg : CableConfiguration) : Except PyError CableLayer :=
  match cfg.layers with
  | [] => .error .valueError
  | c :: _ => .ok c

/-- Embedding of `CableConfiguration.calculate_conductor_losses`
(lines 103-123) at an explicitly given temperature: losses are
`current^2 * get_electrical_resistance(length=1, temperature)`
of the conductor (first) layer. -/
def calculate_conductor_losses (cfg : CableConfiguration) (temperature : ℝ) :
    Except PyError ℝ :=
  match cfg.layers with
  | [] => .error .valueError
  | c :: _ => .ok (cfg.current ^ 2 * c.get_electrical_resistance 1 temperature)

/-- Accumulating sum of layer thermal resistances, mirroring the two
`for` loops of `get_total_thermal_resistance` (lines 125-143); a raised
exception from any layer propagates. -/
def sum_thermal_resistances : List CableLayer → ℝ → Except PyError ℝ
  | [], acc => .ok acc
  | l :: ls, acc => do
      let r ← l.get_thermal_resistance
      sum_thermal_resistances ls (acc + r)

/-- Embedding of `CableConfiguration.get_total_thermal_resistance`
(lines 125-143): starts at `0.0`, adds the thermal resistance of every
internal layer and then of every external layer. -/
def get_total_thermal_resistance (cfg : CableConfiguration) : Except PyError ℝ :=
  sum_thermal_resistances (cfg.layers ++ cfg.external_layers) 0

end CableConfiguration

/-- Embedding of
`MutualHeatingModel.calculate_mutual_thermal_resistance` of
`cable_spacing_optimization.py` (lines 37-66): returns `0.0` for
`distance <= 0`, otherwise
`max(0, soil_resistivity / (2 pi) * log(2 depth / distance))`. -/
def calculate_mutual_thermal_resistance (distance depth : ℝ)
    (soil_resistivity : ℝ := 1) : ℝ :=
  if distance ≤ 0 then 0
  else max 0 (soil_resistivity / (2 * Real.pi) * Real.log (2 * depth / distance))

/-- Thermal conductivity table of `MaterialDatabase.MATERIALS`
(`material_database.py`); only the `lambda` column is embedded, as the
claims under verification use no other column.  `get_lambda` returns
`none` for an unknown material, mirroring the `None` of the source. -/
def get_lambda (name : String) : Option ℝ :=
  (([ ( "Beton (Normal)", (2.1 : ℝ)), ( "Beton (Leicht)", 0.8), ( "Stahlbeton", 2.5),
      ( "Mörtel", 1.2), ( "Ziegel (Vollziegel)", 0.8), ( "Ziegel (Hochlochziegel)", 0.35),
      ( "Porenbeton", 0.16), ( "Kalksandstein", 0.8), ( "Mineralwolle", 0.04),
      ( "Polystyrol (EPS)", 0.035), ( "Polystyrol (XPS)", 0.032), ( "Polyurethan (PUR)", 0.025),
      ( "Steinwolle", 0.045), ( "Glaswolle", 0.04), ( "Holz (Weich)", 0.13),
      ( "Holz (Hart)", 0.18), ( "Sperrholz", 0.15), ( "Spanplatte", 0.12),
      ( "Stahl", 50.0), ( "Aluminium", 160.0), ( "Kupfer", 380.0), ( "Zink", 110.0),
      ( "Kupferleiter", 380.0), ( "Aluminiumleiter", 230.0), ( "Glas (Normal)", 1.0),
      ( "Isolierglas (2-fach)", 0.3), ( "Isolierglas (3-fach)", 0.2), ( "Gips", 0.35),
      ( "Gipskarton", 0.25), ( "Lehm", 0.8), ( "Kork", 0.045), ( "Bitumen", 0.17),
      ( "Kunststoff (PE)", 0.4), ( "XLPE (Vernetztes Polyethylen)", 0.286),
      ( "EPR (Ethylen-Propylen)", 0.4), ( "PVC (Polyvinylchlorid)", 0.16),
      ( "PE (Polyethylen)", 0.4), ( "Halbleitende XLPE", 0.286), ( "PE-Schutzrohr", 0.4),
      ( "PVC-Schutzrohr", 0.16), ( "Stahlrohr", 50.0), ( "Erdreich (trocken)", 0.5),
      ( "Erdreich (feucht)", 2.0), ( "Sand (trocken)", 0.4), ( "Sand (feucht)", 1.5),
      ( "Luftschicht (ruhend)", 0.026) ] : List (String × ℝ)).lookup name)

/-- Value of the `u_value_W_m2K` entry: a Python float, which is either
a finite number or `float(inf)` (returned by the source when the total
resistance is not positive). -/
inductive UVal where
  | val : ℝ → UVal
  | inf : UVal

/-- Result record of `calculate_u_value` (the embedded fields of the
returned dict that the claims mention). -/
structure UResult where
  u_value : UVal
  total_resistance : ℝ

/-- Accumulation loop of `ThermalCalculator.calculate_u_value`
(`thermal_calculator.py` lines 90-104): adds `thickness / lambda` per
layer, raising `ValueError` for an unknown material. -/
def sum_u_resistances : List (String × ℝ) → ℝ → Except PyError ℝ
  | [], acc => .ok acc
  | (m, d) :: ls, acc =>
      match get_lambda m with
      | none => .error .valueError
      | some lam => sum_u_resistances ls (acc + d / lam)

/-- Embedding of `ThermalCalculator.calculate_u_value`
(`thermal_calculator.py` lines 66-115): raises `ValueError` on an empty
layer list; starts from `R_si + R_se = 0.13 + 0.04`, accumulates
`thickness/lambda` over the layers, and returns
`u = 1/R_total` when `R_total > 0` and `float(inf)` otherwise. -/
def calculate_u_value (layers : List (String × ℝ)) : Except PyError UResult :=
  match layers with
  | [] => .error .valueError
  | _ :: _ => do
      let rTotal ← sum_u_resistances layers (0.13 + 0.04)
      .ok ⟨if 0 < rTotal then .val (1 / rTotal) else .inf, rTotal⟩

/-- Result fields of `calculate_conductor_temperature`: the returned
conductor temperature together with the entries of its details dict
(`losses_W_per_m`, `thermal_resistance_K_m_W`, `iterations`). -/
structure TempResult where
  t : ℝ
  losses : ℝ
  r_thermal : ℝ
  iterations : ℕ

namespace CableConfiguration

/-- Iteration loop of `calculate_conductor_temperature` (lines 160-192).
Arguments: remaining loop iterations (starting budget 10), the current
value of the Python loop index `iteration`, the candidate temperature
`t_conductor` and the `losses` / `r_thermal` values carried from the
previous iteration (initialized to `0.0` at lines 161-162).  A `break`
happens before `t_conductor = t_new`, so on convergence the previous
candidate is returned; on budget exhaustion the last `t_new` is
returned.  `iterations` in the details dict is the final loop index
plus one. -/
def temp_loop (cfg : CableConfiguration) :
    ℕ → ℕ → ℝ → ℝ → ℝ → Except PyError TempResult
  | 0, idx, t, losses, r_thermal => .ok ⟨t, losses, r_thermal, idx⟩
  | n + 1, idx, t, _, _ => do
      let losses ← cfg.calculate_conductor_losses t
      let r_thermal ← cfg.get_total_thermal_resistance
      let tNew := cfg.ambient_temp + losses * r_thermal
      if |tNew - t| < 0.1 then .ok ⟨t, losses, r_thermal, idx + 1⟩
      else cfg.temp_loop n (idx + 1) tNew losses r_thermal

/-- Embedding of `CableConfiguration.calculate_conductor_temperature`
(lines 145-192): starts from `max_conductor_temp` and runs the loop for
at most 10 iterations. -/
def calculate_conductor_temperature (cfg : CableConfiguration) :
    Except PyError TempResult :=
  cfg.temp_loop 10 0 cfg.max_conductor_temp 0 0

/-- State-threaded version of `calculate_conductor_temperature`: the
method reads `self` but contains no assignment to any attribute of
`self`, so the configuration is returned unchanged alongside the
result. -/
def calculate_conductor_temperature_st (cfg : CableConfiguration) :
    Except PyError (TempResult × CableConfiguration) :=
  (cfg.calculate_conductor_temperature).map (fun r => (r, cfg))

/-- Loop of `calculate_temperature_profile` (lines 211-220): for each
layer append `(inner_radius, t)`, drop the temperature by
`losses * get_thermal_resistance()` and append `(outer_radius, t)`. -/
def profile_loop (losses : ℝ) :
    List CableLayer → ℝ → Except PyError (List (ℝ × ℝ × String))
  | [], _ => .ok []
  | l :: ls, t => do
      let r ← l.get_thermal_resistance
      let t2 := t - losses * r
      let rest ← profile_loop losses ls t2
      .ok ((l.inner_radius, t, l.name) :: (l.outer_radius, t2, l.name) :: rest)

/-- Embedding of `CableConfiguration.calculate_temperature_profile`
(lines 194-222): solves for the conductor temperature, evaluates the
losses there, and walks outward through the internal layers. -/
def calculate_temperature_profile (cfg : CableConfiguration) :
    Except PyError (List (ℝ × ℝ × String)) := do
  let res ← cfg.calculate_conductor_temperature
  let losses ← cfg.calculate_conductor_losses res.t
  profile_loop losses cfg.layers res.t

/-- Binary-search loop of `calculate_max_current` (lines 232-247),
threading the mutated configuration (`self.current = i_test`).  The
returned boolean records whether the loop ended through the `break`
(tolerance met) rather than by exhausting its 20 probes. -/
def max_current_loop : ℕ → ℝ → ℝ → CableConfiguration →
    Except PyError (CableConfiguration × Bool)
  | 0, _, _, c => .ok (c, false)
  | n + 1, iMin, iMax, c => do
      let iTest := (iMin + iMax) / 2
      let c2 := { c with current := iTest }
      let r ← c2.calculate_conductor_temperature
      if |r.t - c2.max_conductor_temp| < 0.5 then .ok (c2, true)
      else if c2.max_conductor_temp < r.t then max_current_loop n iMin iTest c2
      else max_current_loop n iTest iMax c2

/-- Embedding of `CableConfiguration.calculate_max_current`
(lines 224-253): binary search over `[0, 10000]` A with 20 probes, then
a final `calculate_conductor_temperature` call on the mutated
configuration; returns `self.current` together with the final
configuration state. -/
def calculate_max_current (cfg : CableConfiguration) :
    Except PyError (ℝ × CableConfiguration) := do
  let p ← max_current_loop 20 0 10000 cfg
  let _ ← p.1.calculate_conductor_temperature
  .ok (p.1.current, p.1)

end CableConfiguration

/-- Modelled from the spec (claim C3 refinement target, spec section
4.2): the fixed-point iteration on the candidate temperature `t` with
step `t_new = ambient + P(t) * Rth`, stopping as soon as
`|t_new - t| < 0.1` and otherwise continuing with `t := t_new`, for at
most the given number of iterations. -/
def spec_fixed_point_iter (ambient : ℝ) (P : ℝ → ℝ) (Rth : ℝ) :
    ℕ → ℝ → ℝ
  | 0, t => t
  | n + 1, t =>
      let tNew := ambient + P t * Rth
      if |tNew - t| < 0.1 then t else spec_fixed_point_iter ambient P Rth n tNew

/-- Per-layer thermal resistance as a total real-valued function: the
value `get_thermal_resistance` returns whenever it does not raise
(i.e. whenever the conductivity is nonzero). -/
def thermal_resistance_pure (l : CableLayer) : ℝ :=
  if l.inner_radius ≤ 0 ∨ l.outer_radius ≤ l.inner_radius then 0
  else 1 / l.thermal_conductivity * Real.log (l.outer_radius / l.inner_radius) / (2 * Real.pi)

namespace CableConfiguration

/-- Total-function value of `get_total_thermal_resistance` (valid when
no layer has zero conductivity). -/
def pure_rth (cfg : CableConfiguration) : ℝ :=
  ((cfg.layers ++ cfg.external_layers).map thermal_resistance_pure).sum

/-- Total-function value of `calculate_conductor_losses` (valid when
the layer list is non-empty). -/
def pure_losses (cfg : CableConfiguration) (t : ℝ) : ℝ :=
  cfg.current ^ 2 * (cfg.layers.headI).get_electrical_resistance 1 t

/-- One update of the candidate conductor temperature,
`t_new = ambient + losses(t) * r_total`. -/
def pure_step (cfg : CableConfiguration) (t : ℝ) : ℝ :=
  cfg.ambient_temp + cfg.pure_losses t * cfg.pure_rth

/-- Sequence of candidate temperatures produced by the solver when the
tolerance test never fires: `iter_temps 0 = max_conductor_temp` and
`iter_temps (k+1) = pure_step (iter_temps k)`. -/
def iter_temps (cfg : CableConfiguration) : ℕ → ℝ
  | 0 => cfg.max_conductor_temp
  | k + 1 => cfg.pure_step (cfg.iter_temps k)

end CableConfiguration

/-- Embedding of line 73 of `enhanced_cable_model.py`
(`EnhancedCableConfiguration.calculate_enhanced_losses`):
`r_dc = conductor.get_electrical_resistance(temperature)` passes the
candidate temperature positionally as the `length` parameter, so the
`temperature` parameter keeps its default value `20.0`. -/
def enhanced_r_dc (conductor : CableLayer) (temperature : ℝ) : ℝ :=
  conductor.get_electrical_resistance temperature 20

/-- Sum of the per-layer planar resistances `thickness / lambda` for a
list of `(material, thickness)` pairs (defined whenever every material
is in the database). -/
def u_layers_sum (layers : List (String × ℝ)) : ℝ :=
  (layers.map (fun p => p.2 / ((get_lambda p.1).getD 1))).sum

/-!
Concrete configurations used as witnesses and counterexamples below.
-/

/-- Copper-like conductor layer used in concrete example
configurations: full cylinder of radius 1 mm, so the cross section is
`pi` mm^2 and its own thermal-resistance contribution is `0`
(degenerate inner radius), exactly as for the conductors of the
predefined cables of the source. -/
def example_conductor (rho alpha : ℝ) : CableLayer :=
  { name := "Conductor", material := "Cu", inner_radius := 0,
    outer_radius := 1, thermal_conductivity := 1, resistivity := rho,
    temp_coefficient := alpha }

/-- Single passive shell with inner radius 1 mm, outer radius 2 mm and
conductivity 1, giving thermal resistance `ln 2 / (2 pi)`. -/
def example_shell : CableLayer :=
  { name := "Sheath", material := "PE", inner_radius := 1,
    outer_radius := 2, thermal_conductivity := 1, resistivity := 0,
    temp_coefficient := 0 }

/-- Configuration for the C3 witness: one lossless conductor layer. -/
def cfg_c3 : CableConfiguration :=
  { name := "C3", layers := [example_conductor 0 0], external_layers := [],
    current := 0, ambient_temp := 20, max_conductor_temp := 90 }

/-- Configuration for the C6 witness: one well-formed shell layer with
positive inner radius, and zero current (hence zero losses). -/
def cfg_c6 : CableConfiguration :=
  { name := "C6", layers := [example_shell], external_layers := [],
    current := 5, ambient_temp := 20, max_conductor_temp := 90 }

/-- Configuration for the C4 witness: the loop gain of the fixed-point
iteration is `40 ln 2 / pi^2 = 2.8 > 1`, so the iteration diverges and
never meets the 0.1 K tolerance. -/
def cfg_div : CableConfiguration :=
  { name := "Divergent", layers := [example_conductor 0.02 0.004, example_shell],
    external_layers := [], current := 1000, ambient_temp := 20,
    max_conductor_temp := 90 }

/-- Thin shell with radius ratio 1001/1000, used to tune the thermal
resistance of `cfg_break` precisely. -/
def example_shell_thin : CableLayer :=
  { name := "Sheath", material := "PE", inner_radius := 1000,
    outer_radius := 1001, thermal_conductivity := 1, resistivity := 0,
    temp_coefficient := 0 }

/-- Configuration for the C5/C10 witnesses: at the first probe current
of 5000 A the temperature update lands within 0.1 K of the start value
90, so the inner solver returns 90 at once and the binary search breaks
at its first probe. -/
def cfg_break : CableConfiguration :=
  { name := "Break", layers := [example_conductor 0.0553 0, example_shell_thin],
    external_layers := [], current := 0, ambient_temp := 20,
    max_conductor_temp := 90 }

/-- Configuration for the C5 counterexample: the conductor resistance
is so large that every probe current of the binary search overshoots
`max_conductor_temp` by far, so all 20 probes step the bracket down to
`10000 / 2^20` A and the tolerance of 0.5 K is never met. -/
def cfg_hot : CableConfiguration :=
  { name := "Hot", layers := [example_conductor 1000000000 0, example_shell],
    external_layers := [], current := 0, ambient_temp := 20,
    max_conductor_temp := 90 }

/-- Configuration for the C7 failing input: a conductor with
resistivity 2 Ohm mm^2/m and temperature coefficient 0.004 1/K. -/
def cfg_c7 : CableConfiguration :=
  { name := "C7", layers := [example_conductor 2 0.004], external_layers := [],
    current := 10, ambient_temp := 20, max_conductor_temp := 90 }

/-!
Helper lemmas about the layer operations.
-/

theorem get_thermal_resistance_eq_pure (l : CableLayer)
    (h : l.thermal_conductivity ≠ 0) :
    l.get_thermal_resistance = .ok (thermal_resistance_pure l) := by
  unfold CableLayer.get_thermal_resistance thermal_resistance_pure
  by_cases hg : l.inner_radius ≤ 0 ∨ l.outer_radius ≤ l.inner_radius
  · rw [if_pos hg, if_pos hg]
  · rw [if_neg hg, if_neg hg, if_neg h]

theorem thermal_resistance_pure_nonneg (l : CableLayer)
    (h1 : 0 < l.thermal_conductivity) :
    0 ≤ thermal_resistance_pure l := by
  unfold thermal_resistance_pure
  by_cases hg : l.inner_radius ≤ 0 ∨ l.outer_radius ≤ l.inner_radius
  · rw [if_pos hg]
  · rw [if_neg hg]
    push_neg at hg
    have hr : (1 : ℝ) ≤ l.outer_radius / l.inner_radius :=
      (one_le_div hg.1).mpr hg.2.le
    have hlog : 0 ≤ Real.log (l.outer_radius / l.inner_radius) := Real.log_nonneg hr
    positivity

theorem except_bind_ok {α β : Type} (a : α) (f : α → Except PyError β) :
    (do let x ← Except.ok a; f x) = f a := rfl

theorem except_bind_error {α β : Type} (e : PyError)
    (f : α → Except PyError β) :
    (do let x ← (Except.error e : Except PyError α); f x) = .error e := rfl

theorem sum_thermal_resistances_eq (ls : List CableLayer)
    (h : ∀ l ∈ ls, l.thermal_conductivity ≠ 0) :
    ∀ acc : ℝ, CableConfiguration.sum_thermal_resistances ls acc =
      .ok (acc + (ls.map thermal_resistance_pure).sum) := by
  induction ls with
  | nil => intro acc; simp [CableConfiguration.sum_thermal_resistances]
  | cons l ls ih =>
      intro acc
      have hl : l.thermal_conductivity ≠ 0 := h l (List.mem_cons_self l ls)
      have hls : ∀ x ∈ ls, x.thermal_conductivity ≠ 0 :=
        fun x hx => h x (List.mem_cons_of_mem l hx)
      rw [CableConfiguration.sum_thermal_resistances,
        get_thermal_resistance_eq_pure l hl, except_bind_ok,
        ih hls (acc + thermal_resistance_pure l)]
      congr 1
      simp
      ring

theorem get_total_thermal_resistance_eq (cfg : CableConfiguration)
    (h : ∀ l ∈ cfg.layers ++ cfg.external_layers, l.thermal_conductivity ≠ 0) :
    cfg.get_total_thermal_resistance = .ok cfg.pure_rth := by
  rw [CableConfiguration.get_total_thermal_resistance,
    sum_thermal_resistances_eq _ h 0, CableConfiguration.pure_rth]
  congr 1
  ring

theorem calculate_conductor_losses_eq (cfg : CableConfiguration)
    (c : CableLayer) (rest : List CableLayer) (hl : cfg.layers = c :: rest)
    (t : ℝ) :
    cfg.calculate_conductor_losses t = .ok (cfg.pure_losses t) := by
  simp [CableConfiguration.calculate_conductor_losses,
    CableConfiguration.pure_losses, hl]

/-!
Claim C1: per-layer thermal resistance formula.
-/

/-- Claim C1: for every cable layer with `0 < inner_radius < outer_radius`
and positive thermal conductivity, `CableLayer.get_thermal_resistance`
returns exactly `ln(outer_radius / inner_radius) / (2 pi conductivity)`
(in K m/W). -/
theorem C1_thermal_resistance_formula (l : CableLayer)
    (h1 : 0 < l.inner_radius) (h2 : l.inner_radius < l.outer_radius)
    (h3 : 0 < l.thermal_conductivity) :
    l.get_thermal_resistance =
      .ok (Real.log (l.outer_radius / l.inner_radius) /
        (2 * Real.pi * l.thermal_conductivity)) := by
  unfold CableLayer.get_thermal_resistance
  rw [if_neg (by push_neg; exact ⟨h1, h2⟩), if_neg (ne_of_gt h3)]
  exact congrArg Except.ok (by ring)

/-- Witness for C1 at the concrete layer of the claim:
inner radius 10 mm, outer radius 20 mm, conductivity 1 W/(m K) gives
`ln 2 / (2 pi)`. -/
theorem C1_thermal_resistance_formula_witness :
    ({ name := "Insulation", material := "XLPE", inner_radius := 10,
       outer_radius := 20, thermal_conductivity := 1, resistivity := 0,
       temp_coefficient := 0 } : CableLayer).get_thermal_resistance =
      .ok (Real.log 2 / (2 * Real.pi)) := by
  have h := C1_thermal_resistance_formula
    { name := "Insulation", material := "XLPE", inner_radius := 10,
      outer_radius := 20, thermal_conductivity := 1, resistivity := 0,
      temp_coefficient := 0 }
    (by norm_num) (by norm_num) (by norm_num)
  rw [h]
  norm_num

/-!
Claim C2: behaviour on degenerate geometry / non-positive conductivity.
The code does NOT raise a validation error: it silently returns `0.0`
for degenerate geometry, raises `ZeroDivisionError` (not a validation
error) for zero conductivity with valid geometry, and silently returns
a negative value for negative conductivity with valid geometry.
-/

/-- Counterexample for C2: for the layer with `inner_radius = 10`,
`outer_radius = 5` (outer below inner) and conductivity 1, the claim
says `get_thermal_resistance` raises a validation error and never
silently returns zero, but the code silently returns `0.0`. -/
theorem C2_counterexample :
    ({ name := "Bad", material := "X", inner_radius := 10, outer_radius := 5,
       thermal_conductivity := 1, resistivity := 0, temp_coefficient := 0 } :
      CableLayer).get_thermal_resistance = .ok 0 := by
  unfold CableLayer.get_thermal_resistance
  rw [if_pos]
  right
  norm_num

/-- Amended claim C2: `get_thermal_resistance` raises no validation
error.  When `inner_radius <= 0` or `outer_radius <= inner_radius` it
silently returns `0.0`; with valid geometry, zero conductivity raises
`ZeroDivisionError` (a float division by zero, not a validation error)
and negative conductivity silently returns a negative value. -/
theorem C2_amended_degenerate_behaviour (l : CableLayer) :
    ((l.inner_radius ≤ 0 ∨ l.outer_radius ≤ l.inner_radius) →
        l.get_thermal_resistance = .ok 0) ∧
      (0 < l.inner_radius → l.inner_radius < l.outer_radius →
        l.thermal_conductivity = 0 →
        l.get_thermal_resistance = .error .zeroDivisionError) ∧
      (0 < l.inner_radius → l.inner_radius < l.outer_radius →
        l.thermal_conductivity < 0 →
        ∃ x, l.get_thermal_resistance = .ok x ∧ x < 0) := by
  refine ⟨fun hg => ?_, fun h1 h2 h0 => ?_, fun h1 h2 hneg => ?_⟩
  · unfold CableLayer.get_thermal_resistance
    rw [if_pos hg]
  · unfold CableLayer.get_thermal_resistance
    rw [if_neg (by push_neg; exact ⟨h1, h2⟩), if_pos h0]
  · refine ⟨1 / l.thermal_conductivity *
        Real.log (l.outer_radius / l.inner_radius) / (2 * Real.pi), ?_, ?_⟩
    · unfold CableLayer.get_thermal_resistance
      rw [if_neg (by push_neg; exact ⟨h1, h2⟩), if_neg (ne_of_lt hneg)]
    · have hr : (1 : ℝ) < l.outer_radius / l.inner_radius :=
        (one_lt_div h1).mpr h2
      have hlog : 0 < Real.log (l.outer_radius / l.inner_radius) :=
        Real.log_pos hr
      have hinv : 1 / l.thermal_conductivity < 0 := by
        exact div_neg_of_pos_of_neg one_pos hneg
      have h2pi : (0 : ℝ) < 2 * Real.pi := by positivity
      exact div_neg_of_neg_of_pos (mul_neg_of_neg_of_pos hinv hlog) h2pi

/-- Witness for the amended C2, at three concrete layers: outer below
inner (silent zero), zero conductivity (ZeroDivisionError), negative
conductivity (silent negative value). -/
theorem C2_amended_degenerate_behaviour_witness :
    ({ name := "A", material := "X", inner_radius := 10, outer_radius := 5,
       thermal_conductivity := 2, resistivity := 0, temp_coefficient := 0 } :
        CableLayer).get_thermal_resistance = .ok 0 ∧
      ({ name := "B", material := "X", inner_radius := 10, outer_radius := 20,
         thermal_conductivity := 0, resistivity := 0, temp_coefficient := 0 } :
        CableLayer).get_thermal_resistance = .error .zeroDivisionError ∧
      ∃ x, ({ name := "C", material := "X", inner_radius := 10, outer_radius := 20,
              thermal_conductivity := -1, resistivity := 0, temp_coefficient := 0 } :
        CableLayer).get_thermal_resistance = .ok x ∧ x < 0 := by
  refine ⟨(C2_amended_degenerate_behaviour _).1 (by right; norm_num),
    (C2_amended_degenerate_behaviour _).2.1 (by norm_num) (by norm_num) rfl,
    (C2_amended_degenerate_behaviour _).2.2 (by norm_num) (by norm_num) (by norm_num)⟩

/-!
Claim C8: mutual thermal resistance of the cable spacing model.
The code clamps the logarithmic formula at zero (`max(0, ...)`), so for
`distance > 2 * depth` it returns `0` instead of the (negative) formula
value.
-/

/-- Counterexample for C8: at `distance = 4`, `depth = 1`,
`soil_resistivity = 1` the formula value `(1/(2 pi)) ln(1/2)` is
negative, but the code returns `max(0, ...) = 0`. -/
theorem C8_counterexample :
    calculate_mutual_thermal_resistance 4 1 1 ≠
      1 / (2 * Real.pi) * Real.log (2 * 1 / 4) := by
  have hlog : Real.log (2 * 1 / 4) < 0 := by
    rw [show (2 * 1 / 4 : ℝ) = 1 / 2 by norm_num]
    exact Real.log_neg (by norm_num) (by norm_num)
  have hval : 1 / (2 * Real.pi) * Real.log (2 * 1 / 4) < 0 :=
    mul_neg_of_pos_of_neg (by positivity) hlog
  unfold calculate_mutual_thermal_resistance
  rw [if_neg (by norm_num)]
  rw [max_eq_left hval.le]
  exact ne_of_gt hval

/-- Amended claim C8: for `0 < distance <= 2 * depth` and non-negative
soil resistivity the mutual thermal resistance equals
`(soil_resistivity / (2 pi)) ln(2 depth / distance)`; outside that range
(formula value negative) the code clamps the result to `0`, and for
`distance <= 0` it returns `0`. -/
theorem C8_amended_mutual_resistance (distance depth soil_resistivity : ℝ)
    (h1 : 0 < distance) (h2 : distance ≤ 2 * depth)
    (h3 : 0 ≤ soil_resistivity) :
    calculate_mutual_thermal_resistance distance depth soil_resistivity =
      soil_resistivity / (2 * Real.pi) * Real.log (2 * depth / distance) := by
  unfold calculate_mutual_thermal_resistance
  rw [if_neg (not_le.mpr h1)]
  refine max_eq_right ?_
  have hr : (1 : ℝ) ≤ 2 * depth / distance := (one_le_div h1).mpr h2
  have hlog : 0 ≤ Real.log (2 * depth / distance) := Real.log_nonneg hr
  have : (0 : ℝ) ≤ soil_resistivity / (2 * Real.pi) := by positivity
  exact mul_nonneg this hlog

/-- Witness for the amended C8 at `distance = 1`, `depth = 1`,
`soil_resistivity = 1`: the result is `(1/(2 pi)) ln 2`. -/
theorem C8_amended_mutual_resistance_witness :
    calculate_mutual_thermal_resistance 1 1 1 =
      1 / (2 * Real.pi) * Real.log 2 := by
  have h := C8_amended_mutual_resistance 1 1 1 (by norm_num) (by norm_num)
    (by norm_num)
  rw [h]
  norm_num

/-!
Claim C9: U-value of a planar multi-layer wall.
-/

theorem sum_u_resistances_eq (ls : List (String × ℝ))
    (h : ∀ p ∈ ls, ∃ lam, get_lambda p.1 = some lam) :
    ∀ acc : ℝ, sum_u_resistances ls acc = .ok (acc + u_layers_sum ls) := by
  induction ls with
  | nil => intro acc; simp [sum_u_resistances, u_layers_sum]
  | cons p ls ih =>
      intro acc
      obtain ⟨lam, hlam⟩ := h p (List.mem_cons_self p ls)
      have hls : ∀ q ∈ ls, ∃ lam, get_lambda q.1 = some lam :=
        fun q hq => h q (List.mem_cons_of_mem p hq)
      obtain ⟨m, d⟩ := p
      rw [sum_u_resistances, hlam]
      show sum_u_resistances ls (acc + d / lam) = _
      rw [ih hls (acc + d / lam)]
      congr 1
      simp [u_layers_sum, hlam]
      ring

theorem u_layers_sum_nonneg (ls : List (String × ℝ))
    (h : ∀ p ∈ ls, ∃ lam, get_lambda p.1 = some lam ∧ 0 < lam)
    (hth : ∀ p ∈ ls, 0 ≤ p.2) :
    0 ≤ u_layers_sum ls := by
  refine List.sum_nonneg ?_
  intro x hx
  obtain ⟨p, hp, rfl⟩ := List.mem_map.mp hx
  obtain ⟨lam, hlam, hpos⟩ := h p hp
  rw [hlam]
  exact div_nonneg (hth p hp) (by simpa using hpos.le)

/-- Counterexample for C9: the claim quantifies over every layer list
whose materials are in the database with positive conductivity, with no
constraint on the thickness.  For the single layer
`("Beton (Normal)", -10)` the total resistance is
`0.13 + 0.04 + (-10)/2.1 < 0`, and the code returns `float(inf)` as the
U-value rather than `1 / total_resistance`. -/
theorem C9_counterexample :
    calculate_u_value [( "Beton (Normal)", -10)] =
        .ok ⟨UVal.inf, 0.13 + 0.04 + (-10) / 2.1⟩ ∧
      UVal.inf ≠ UVal.val (1 / (0.13 + 0.04 + (-10) / 2.1)) := by
  constructor
  · have hlam : get_lambda "Beton (Normal)" = some 2.1 := rfl
    have hs : sum_u_resistances [( "Beton (Normal)", -10)] (0.13 + 0.04) =
        .ok (0.13 + 0.04 + (-10) / 2.1) := by
      simp [sum_u_resistances, hlam]
    rw [calculate_u_value, hs, except_bind_ok]
    rw [if_neg (by norm_num)]
  · exact fun h => UVal.noConfusion h

/-- Amended claim C9: for every non-empty list of layers whose
materials are in the database with positive conductivity and whose
thicknesses are non-negative, `calculate_u_value` returns
`total_resistance = 0.13 + sum of thickness/lambda + 0.04` and
`u_value = 1 / total_resistance` (when some thickness is negative
enough that the total resistance is not positive, the code instead
returns `float(inf)`).  For the concrete example (concrete 0.20 m,
lambda 2.1, plus EPS 0.12 m, lambda 0.035) the exact total resistance
is `7757/2100 = 3.6938...` (the spec rounds this to 3.66) and the exact
U-value is `2100/7757 = 0.2707...` (the spec rounds this to 0.273). -/
theorem C9_amended_u_value (layers : List (String × ℝ))
    (hne : layers ≠ [])
    (hmat : ∀ p ∈ layers, ∃ lam, get_lambda p.1 = some lam ∧ 0 < lam)
    (hth : ∀ p ∈ layers, 0 ≤ p.2) :
    calculate_u_value layers =
      .ok ⟨UVal.val (1 / (0.13 + u_layers_sum layers + 0.04)),
        0.13 + u_layers_sum layers + 0.04⟩ := by
  obtain ⟨p, ls, rfl⟩ : ∃ p ls, layers = p :: ls := by
    cases layers with
    | nil => exact absurd rfl hne
    | cons p ls => exact ⟨p, ls, rfl⟩
  have hmat' : ∀ q ∈ p :: ls, ∃ lam, get_lambda q.1 = some lam :=
    fun q hq => ⟨(hmat q hq).choose, (hmat q hq).choose_spec.1⟩
  have hsum : 0 ≤ u_layers_sum (p :: ls) := u_layers_sum_nonneg _ hmat hth
  rw [calculate_u_value]
  rw [sum_u_resistances_eq (p :: ls) hmat' (0.13 + 0.04), except_bind_ok]
  rw [if_pos (by linarith)]
  have heq : 0.13 + 0.04 + u_layers_sum (p :: ls) =
      0.13 + u_layers_sum (p :: ls) + 0.04 := by ring
  rw [heq]

/-- Witness for the amended C9 at the concrete wall of the claim:
concrete 0.20 m plus EPS 0.12 m gives total resistance `7757/2100`
(about 3.694 m^2 K/W) and U-value `2100/7757` (about 0.271 W/(m^2 K)). -/
theorem C9_amended_u_value_witness :
    calculate_u_value [( "Beton (Normal)", 0.20), ( "Polystyrol (EPS)", 0.12)] =
      .ok ⟨UVal.val (2100 / 7757), 7757 / 2100⟩ := by
  have h := C9_amended_u_value
    [( "Beton (Normal)", 0.20), ( "Polystyrol (EPS)", 0.12)]
    (by simp)
    (by
      intro p hp
      simp only [List.mem_cons, List.not_mem_nil, or_false] at hp
      rcases hp with rfl | rfl
      · exact ⟨2.1, rfl, by norm_num⟩
      · exact ⟨0.035, rfl, by norm_num⟩)
    (by
      intro p hp
      simp only [List.mem_cons, List.not_mem_nil, or_false] at hp
      rcases hp with rfl | rfl <;> norm_num)
  rw [h]
  have hsum : u_layers_sum [( "Beton (Normal)", 0.20), ( "Polystyrol (EPS)", 0.12)] =
      0.20 / 2.1 + 0.12 / 0.035 := by
    have h1 : get_lambda "Beton (Normal)" = some 2.1 := rfl
    have h2 : get_lambda "Polystyrol (EPS)" = some 0.035 := rfl
    simp [u_layers_sum, h1, h2]
  rw [hsum]
  norm_num

/-!
Helper lemmas about the conductor-temperature solver loop.
-/

theorem iter_temps_eq_iterate (cfg : CableConfiguration) (k : ℕ) :
    cfg.iter_temps k = (cfg.pure_step)^[k] cfg.max_conductor_temp := by
  induction k with
  | zero => rfl
  | succ k ih =>
      rw [CableConfiguration.iter_temps, ih, Function.iterate_succ_apply']

theorem temp_loop_spec (cfg : CableConfiguration) (P : ℝ → ℝ) (R : ℝ)
    (hL : ∀ t, cfg.calculate_conductor_losses t = .ok (P t))
    (hR : cfg.get_total_thermal_resistance = .ok R) :
    ∀ n idx t l r, ∃ L2 R2 k, cfg.temp_loop n idx t l r =
      .ok ⟨spec_fixed_point_iter cfg.ambient_temp P R n t, L2, R2, k⟩ := by
  intro n
  induction n with
  | zero => intro idx t l r; exact ⟨l, r, idx, rfl⟩
  | succ n ih =>
      intro idx t l r
      by_cases h : |cfg.ambient_temp + P t * R - t| < 0.1
      · refine ⟨P t, R, idx + 1, ?_⟩
        rw [CableConfiguration.temp_loop, hL t, except_bind_ok, hR,
          except_bind_ok]
        simp only [spec_fixed_point_iter]
        rw [if_pos h, if_pos h]
      · obtain ⟨L2, R2, k, hk⟩ :=
          ih (idx + 1) (cfg.ambient_temp + P t * R) (P t) R
        refine ⟨L2, R2, k, ?_⟩
        rw [CableConfiguration.temp_loop, hL t, except_bind_ok, hR,
          except_bind_ok]
        simp only [spec_fixed_point_iter]
        rw [if_neg h, if_neg h]
        exact hk

theorem temp_loop_noconv (cfg : CableConfiguration)
    (hL : ∀ t, cfg.calculate_conductor_losses t = .ok (cfg.pure_losses t))
    (hR : cfg.get_total_thermal_resistance = .ok cfg.pure_rth) :
    ∀ n idx t l r,
      (∀ k ≤ n, ¬ |cfg.pure_step ((cfg.pure_step)^[k] t) - (cfg.pure_step)^[k] t| < 0.1) →
      cfg.temp_loop (n + 1) idx t l r =
        .ok ⟨(cfg.pure_step)^[n + 1] t,
          cfg.pure_losses ((cfg.pure_step)^[n] t), cfg.pure_rth, idx + n + 1⟩ := by
  intro n
  induction n with
  | zero =>
      intro idx t l r hdiv
      have h0 := hdiv 0 le_rfl
      simp only [Function.iterate_zero_apply] at h0
      rw [CableConfiguration.temp_loop, hL t, except_bind_ok, hR,
        except_bind_ok]
      rw [if_neg (by simpa [CableConfiguration.pure_step] using h0)]
      rw [CableConfiguration.temp_loop]
      simp only [Function.iterate_one, Function.iterate_zero_apply]
      rfl
  | succ n ih =>
      intro idx t l r hdiv
      have h0 := hdiv 0 (Nat.zero_le _)
      simp only [Function.iterate_zero_apply] at h0
      rw [CableConfiguration.temp_loop, hL t, except_bind_ok, hR,
        except_bind_ok]
      rw [if_neg (by simpa [CableConfiguration.pure_step] using h0)]
      have hstep : cfg.ambient_temp + cfg.pure_losses t * cfg.pure_rth =
          cfg.pure_step t := rfl
      rw [hstep]
      have hdiv2 : ∀ k ≤ n,
          ¬ |cfg.pure_step ((cfg.pure_step)^[k] (cfg.pure_step t)) -
            (cfg.pure_step)^[k] (cfg.pure_step t)| < 0.1 := by
        intro k hk
        have := hdiv (k + 1) (Nat.succ_le_succ hk)
        simpa [Function.iterate_succ_apply] using this
      rw [ih (idx + 1) (cfg.pure_step t) (cfg.pure_losses t) cfg.pure_rth hdiv2]
      have e1 : (cfg.pure_step)^[n + 1 + 1] t =
          (cfg.pure_step)^[n + 1] (cfg.pure_step t) :=
        Function.iterate_succ_apply _ _ _
      have e2 : (cfg.pure_step)^[n + 1] t =
          (cfg.pure_step)^[n] (cfg.pure_step t) :=
        Function.iterate_succ_apply _ _ _
      rw [e1, e2]
      have e3 : idx + 1 + n + 1 = idx + (n + 1) + 1 := by omega
      rw [e3]

/-!
Claim C3: the temperature solver implements the specified fixed-point
iteration.
-/

/-- Claim C3: with a non-empty layer list (conductor first) and no
zero-conductivity layer, `calculate_conductor_temperature` starts from
`max_conductor_temp` and returns exactly the result of the spec-side
fixed-point iteration with step `T_new = ambient + I^2 R(T) * R_th`,
tolerance 0.1 K and at most 10 iterations, where `R_th` is the total
series thermal resistance computed by `get_total_thermal_resistance`. -/
theorem C3_fixed_point_refinement (cfg : CableConfiguration)
    (c : CableLayer) (rest : List CableLayer) (hl : cfg.layers = c :: rest)
    (hcond : ∀ l ∈ cfg.layers ++ cfg.external_layers, l.thermal_conductivity ≠ 0) :
    ∃ res, cfg.calculate_conductor_temperature = .ok res ∧
      cfg.get_total_thermal_resistance = .ok cfg.pure_rth ∧
      res.t = spec_fixed_point_iter cfg.ambient_temp
        (fun u => cfg.current ^ 2 * c.get_electrical_resistance 1 u)
        cfg.pure_rth 10 cfg.max_conductor_temp := by
  have hR := get_total_thermal_resistance_eq cfg hcond
  have hL : ∀ t, cfg.calculate_conductor_losses t =
      .ok (cfg.current ^ 2 * c.get_electrical_resistance 1 t) := by
    intro t
    rw [calculate_conductor_losses_eq cfg c rest hl t]
    rw [CableConfiguration.pure_losses, hl]
    rfl
  obtain ⟨L2, R2, k, hk⟩ := temp_loop_spec cfg
    (fun u => cfg.current ^ 2 * c.get_electrical_resistance 1 u)
    cfg.pure_rth hL hR 10 0 cfg.max_conductor_temp 0 0
  exact ⟨_, hk, hR, rfl⟩

/-- Witness for C3 at a one-layer configuration with zero current. -/
theorem C3_fixed_point_refinement_witness :
    ∃ res, cfg_c3.calculate_conductor_temperature = .ok res ∧
      cfg_c3.get_total_thermal_resistance = .ok cfg_c3.pure_rth ∧
      res.t = spec_fixed_point_iter cfg_c3.ambient_temp
        (fun u => cfg_c3.current ^ 2 *
          (example_conductor 0 0).get_electrical_resistance 1 u)
        cfg_c3.pure_rth 10 cfg_c3.max_conductor_temp := by
  refine C3_fixed_point_refinement cfg_c3 (example_conductor 0 0) [] rfl ?_
  intro l hl
  simp only [cfg_c3, List.append_nil, List.mem_singleton] at hl
  subst hl
  simp [example_conductor]

/-!
Claim C4: non-convergence raises no error; the last iterate and the
iteration count are returned.
-/

/-- Claim C4: for a configuration with a non-empty layer list (and no
zero-conductivity layer, so that the arithmetic itself raises no
exception), if the tolerance test fails in all 10 iterations then
`calculate_conductor_temperature` still returns normally, with the
10th iterate as the temperature and iteration count 10 in the details. -/
theorem C4_nonconvergence_returns_last_iterate (cfg : CableConfiguration)
    (c : CableLayer) (rest : List CableLayer) (hl : cfg.layers = c :: rest)
    (hcond : ∀ l ∈ cfg.layers ++ cfg.external_layers, l.thermal_conductivity ≠ 0)
    (hdiv : ∀ k < 10, 0.1 ≤ |cfg.iter_temps (k + 1) - cfg.iter_temps k|) :
    cfg.calculate_conductor_temperature =
      .ok ⟨cfg.iter_temps 10, cfg.pure_losses (cfg.iter_temps 9),
        cfg.pure_rth, 10⟩ := by
  have hR := get_total_thermal_resistance_eq cfg hcond
  have hL : ∀ t, cfg.calculate_conductor_losses t = .ok (cfg.pure_losses t) :=
    fun t => calculate_conductor_losses_eq cfg c rest hl t
  have hdiv2 : ∀ k ≤ 9,
      ¬ |cfg.pure_step ((cfg.pure_step)^[k] cfg.max_conductor_temp) -
        (cfg.pure_step)^[k] cfg.max_conductor_temp| < 0.1 := by
    intro k hk
    have h := hdiv k (by omega)
    rw [not_lt]
    have e1 : cfg.iter_temps (k + 1) =
        cfg.pure_step ((cfg.pure_step)^[k] cfg.max_conductor_temp) := by
      rw [CableConfiguration.iter_temps, iter_temps_eq_iterate]
    have e2 : cfg.iter_temps k =
        (cfg.pure_step)^[k] cfg.max_conductor_temp := iter_temps_eq_iterate cfg k
    rw [e1, e2] at h
    exact h
  have h := temp_loop_noconv cfg hL hR 9 0 cfg.max_conductor_temp 0 0 hdiv2
  rw [CableConfiguration.calculate_conductor_temperature]
  rw [show (10 : ℕ) = 9 + 1 from rfl, h]
  rw [← iter_temps_eq_iterate cfg 10, ← iter_temps_eq_iterate cfg 9]

/-!
Evaluation lemmas for the concrete example layers.
-/

theorem trp_example_conductor (rho alpha : ℝ) :
    thermal_resistance_pure (example_conductor rho alpha) = 0 := by
  unfold thermal_resistance_pure example_conductor
  rw [if_pos]
  left
  norm_num

theorem trp_example_shell :
    thermal_resistance_pure example_shell = Real.log 2 / (2 * Real.pi) := by
  unfold thermal_resistance_pure example_shell
  rw [if_neg (by norm_num)]
  norm_num

theorem elec_example_conductor (rho alpha : ℝ) (hrho : 0 < rho)
    (len temp : ℝ) :
    (example_conductor rho alpha).get_electrical_resistance len temp =
      rho * len / Real.pi * (1 + alpha * (temp - 20)) := by
  unfold CableLayer.get_electrical_resistance example_conductor
  rw [if_neg (not_le.mpr hrho)]
  have harea : ¬ (Real.pi * ((1 : ℝ) ^ 2 - 0 ^ 2) ≤ 0) := by
    have := Real.pi_pos
    norm_num
    linarith
  rw [if_neg harea]
  norm_num

theorem rth_cfg_div : cfg_div.pure_rth = Real.log 2 / (2 * Real.pi) := by
  simp [CableConfiguration.pure_rth, cfg_div, trp_example_conductor,
    trp_example_shell]

theorem step_cfg_div (t : ℝ) :
    cfg_div.pure_step t =
      (20 + 9200 * Real.log 2 / Real.pi ^ 2) +
        (40 * Real.log 2 / Real.pi ^ 2) * t := by
  have hloss : cfg_div.pure_losses t =
      (1000 : ℝ) ^ 2 * (0.02 * 1 / Real.pi * (1 + 0.004 * (t - 20))) := by
    rw [CableConfiguration.pure_losses]
    have hhead : cfg_div.layers.headI = example_conductor 0.02 0.004 := rfl
    rw [hhead, elec_example_conductor 0.02 0.004 (by norm_num) 1 t]
    norm_num [cfg_div]
  rw [CableConfiguration.pure_step, hloss, rth_cfg_div]
  have hamb : cfg_div.ambient_temp = 20 := rfl
  rw [hamb]
  have hπ : Real.pi ≠ 0 := Real.pi_ne_zero
  field_simp
  ring

theorem iter_gaps_ge (cfg : CableConfiguration) (a g : ℝ)
    (haff : ∀ t, cfg.pure_step t = a + g * t) (hg : 1 ≤ g)
    (h0 : 0.1 ≤ cfg.iter_temps 1 - cfg.iter_temps 0) :
    ∀ k, 0.1 ≤ cfg.iter_temps (k + 1) - cfg.iter_temps k := by
  intro k
  induction k with
  | zero => exact h0
  | succ k ih =>
      have e : cfg.iter_temps (k + 1 + 1) - cfg.iter_temps (k + 1) =
          g * (cfg.iter_temps (k + 1) - cfg.iter_temps k) := by
        rw [show cfg.iter_temps (k + 1 + 1) = cfg.pure_step (cfg.iter_temps (k + 1))
            from rfl,
          show cfg.iter_temps (k + 1) = cfg.pure_step (cfg.iter_temps k) from rfl,
          haff, haff]
        ring
      rw [e]
      nlinarith [ih]

theorem gain_cfg_div : (1 : ℝ) ≤ 40 * Real.log 2 / Real.pi ^ 2 := by
  rw [le_div_iff (by positivity)]
  nlinarith [Real.pi_gt_d6, Real.pi_lt_d6, Real.log_two_gt_d9]

theorem first_gap_cfg_div :
    0.1 ≤ cfg_div.iter_temps 1 - cfg_div.iter_temps 0 := by
  have e0 : cfg_div.iter_temps 0 = 90 := rfl
  have e1 : cfg_div.iter_temps 1 =
      (20 + 9200 * Real.log 2 / Real.pi ^ 2) +
        (40 * Real.log 2 / Real.pi ^ 2) * 90 := by
    rw [show cfg_div.iter_temps 1 = cfg_div.pure_step (cfg_div.iter_temps 0)
        from rfl, e0, step_cfg_div]
  rw [e0, e1]
  have hb : (70.1 : ℝ) ≤ 12800 * Real.log 2 / Real.pi ^ 2 := by
    rw [le_div_iff (by positivity)]
    nlinarith [Real.pi_gt_d6, Real.pi_lt_d6, Real.log_two_gt_d9]
  have e2 : (20 + 9200 * Real.log 2 / Real.pi ^ 2) +
      (40 * Real.log 2 / Real.pi ^ 2) * 90 - 90 =
      12800 * Real.log 2 / Real.pi ^ 2 - 70 := by ring
  rw [e2]
  linarith

/-- Witness for C4 at the divergent configuration `cfg_div` (loop gain
about 2.8): the solver exhausts all 10 iterations and returns the 10th
iterate with iteration count 10, raising nothing. -/
theorem C4_nonconvergence_returns_last_iterate_witness :
    cfg_div.calculate_conductor_temperature =
      .ok ⟨cfg_div.iter_temps 10, cfg_div.pure_losses (cfg_div.iter_temps 9),
        cfg_div.pure_rth, 10⟩ := by
  refine C4_nonconvergence_returns_last_iterate cfg_div
    (example_conductor 0.02 0.004) [example_shell] rfl ?_ ?_
  · intro l hl
    simp only [cfg_div, List.append_nil, List.mem_cons,
      List.not_mem_nil, or_false, List.mem_singleton] at hl
    rcases hl with rfl | rfl
    · simp [example_conductor]
    · simp [example_shell]
  · intro k _
    refine le_trans ?_ (le_abs_self _)
    exact iter_gaps_ge cfg_div _ _ step_cfg_div gain_cfg_div first_gap_cfg_div k

/-!
Claim C7: electrical resistance evaluation in the two solvers.
-/

/-- Claim C7 (code bug in the enhanced variant): the base solver
evaluates the conductor resistance at the candidate temperature as
`R_20 (1 + alpha (T - 20))` with `R_20 = resistivity * length / area`
(first conjunct, at the failing input `T = 90`), but the enhanced
variant (`enhanced_cable_model.py` line 73) passes the temperature
positionally as the `length` parameter, producing
`resistivity * T / area` evaluated at the default temperature 20
(second conjunct), which differs from the claimed
`R_20 (1 + alpha (T - 20))` (third conjunct). -/
theorem C7_resistance_evaluation :
    cfg_c7.calculate_conductor_losses 90 =
        .ok ((10 : ℝ) ^ 2 * (2 * 1 / Real.pi * (1 + 0.004 * (90 - 20)))) ∧
      enhanced_r_dc (example_conductor 2 0.004) 90 =
        2 * 90 / Real.pi * (1 + 0.004 * (20 - 20)) ∧
      enhanced_r_dc (example_conductor 2 0.004) 90 ≠
        2 * 1 / Real.pi * (1 + 0.004 * (90 - 20)) := by
  have he : ∀ len temp : ℝ,
      (example_conductor 2 0.004).get_electrical_resistance len temp =
        2 * len / Real.pi * (1 + 0.004 * (temp - 20)) :=
    fun len temp => elec_example_conductor 2 0.004 (by norm_num) len temp
  refine ⟨?_, ?_, ?_⟩
  · show Except.ok ((10 : ℝ) ^ 2 *
        (example_conductor 2 0.004).get_electrical_resistance 1 90) = _
    rw [he 1 90]
  · rw [enhanced_r_dc, he 90 20]
  · rw [enhanced_r_dc, he 90 20]
    intro h
    have hπ : Real.pi ≠ 0 := Real.pi_ne_zero
    field_simp at h
    norm_num at h

/-!
Claim C6: monotone temperature profile.
-/

theorem elec_example_shell (len temp : ℝ) :
    example_shell.get_electrical_resistance len temp = 0 := by
  unfold CableLayer.get_electrical_resistance example_shell
  rw [if_pos le_rfl]

theorem profile_loop_chain (L : ℝ) (hL : 0 ≤ L) :
    ∀ (ls : List CableLayer) (t : ℝ),
      (∀ l ∈ ls, 0 < l.thermal_conductivity ∧ 0 < l.inner_radius ∧
        l.inner_radius < l.outer_radius) →
      ∃ p, CableConfiguration.profile_loop L ls t = .ok p ∧
        List.Chain' (fun a b : ℝ × ℝ × String => b.2.1 ≤ a.2.1) p ∧
        (∀ x, p.head? = some x → x.2.1 = t) := by
  intro ls
  induction ls with
  | nil =>
      intro t _
      exact ⟨[], rfl, List.chain'_nil, by intro x hx; cases hx⟩
  | cons l ls ih =>
      intro t hgood
      obtain ⟨hcpos, hipos, hio⟩ := hgood l (List.mem_cons_self l ls)
      have hok : l.get_thermal_resistance = .ok (thermal_resistance_pure l) :=
        get_thermal_resistance_eq_pure l (ne_of_gt hcpos)
      have hrnn : 0 ≤ thermal_resistance_pure l :=
        thermal_resistance_pure_nonneg l hcpos
      obtain ⟨p', hp', hchain', hhead'⟩ :=
        ih (t - L * thermal_resistance_pure l)
          (fun x hx => hgood x (List.mem_cons_of_mem l hx))
      refine ⟨(l.inner_radius, t, l.name) ::
        (l.outer_radius, t - L * thermal_resistance_pure l, l.name) :: p', ?_, ?_, ?_⟩
      · rw [CableConfiguration.profile_loop, hok, except_bind_ok]
        show (do
            let rest ← CableConfiguration.profile_loop L ls
              (t - L * thermal_resistance_pure l)
            Except.ok ((l.inner_radius, t, l.name) ::
              (l.outer_radius, t - L * thermal_resistance_pure l, l.name) ::
                rest)) = _
        rw [hp', except_bind_ok]
      · rw [List.chain'_cons]
        constructor
        · have : 0 ≤ L * thermal_resistance_pure l := mul_nonneg hL hrnn
          simp only []
          linarith
        · rw [List.chain'_cons']
          refine ⟨?_, hchain'⟩
          intro h hh
          exact le_of_eq (hhead' h (Option.mem_def.mp hh))
      · intro x hx
        simp only [List.head?_cons, Option.some.injEq] at hx
        rw [← hx]

/-- Claim C6: with every internal layer well-formed
(`0 < inner < outer`, positive conductivity), non-raising external
layers and non-negative conductor losses, the layer-boundary
temperatures of `calculate_temperature_profile` are non-increasing from
the conductor outward. -/
theorem C6_monotone_profile (cfg : CableConfiguration)
    (c : CableLayer) (rest : List CableLayer) (hl : cfg.layers = c :: rest)
    (hgood : ∀ l ∈ cfg.layers, 0 < l.thermal_conductivity ∧
      0 < l.inner_radius ∧ l.inner_radius < l.outer_radius)
    (hext : ∀ l ∈ cfg.external_layers, l.thermal_conductivity ≠ 0)
    (hLnn : ∀ t L, cfg.calculate_conductor_losses t = .ok L → 0 ≤ L) :
    ∃ p, cfg.calculate_temperature_profile = .ok p ∧
      List.Chain' (fun a b : ℝ × ℝ × String => b.2.1 ≤ a.2.1) p := by
  have hcond : ∀ l ∈ cfg.layers ++ cfg.external_layers,
      l.thermal_conductivity ≠ 0 := by
    intro l hmem
    rcases List.mem_append.mp hmem with h | h
    · exact ne_of_gt (hgood l h).1
    · exact hext l h
  have hR := get_total_thermal_resistance_eq cfg hcond
  have hL : ∀ t, cfg.calculate_conductor_losses t = .ok (cfg.pure_losses t) :=
    fun t => calculate_conductor_losses_eq cfg c rest hl t
  obtain ⟨L2, R2, k, hk⟩ := temp_loop_spec cfg cfg.pure_losses cfg.pure_rth
    hL hR 10 0 cfg.max_conductor_temp 0 0
  have hnn : 0 ≤ cfg.pure_losses (spec_fixed_point_iter cfg.ambient_temp
      cfg.pure_losses cfg.pure_rth 10 cfg.max_conductor_temp) :=
    hLnn _ _ (hL _)
  obtain ⟨p, hp, hchain, _⟩ := profile_loop_chain _ hnn cfg.layers
    (spec_fixed_point_iter cfg.ambient_temp cfg.pure_losses cfg.pure_rth 10
      cfg.max_conductor_temp) hgood
  refine ⟨p, ?_, hchain⟩
  rw [CableConfiguration.calculate_temperature_profile,
    CableConfiguration.calculate_conductor_temperature, hk, except_bind_ok]
  show (do
      let losses ← cfg.calculate_conductor_losses (spec_fixed_point_iter
        cfg.ambient_temp cfg.pure_losses cfg.pure_rth 10 cfg.max_conductor_temp)
      CableConfiguration.profile_loop losses cfg.layers (spec_fixed_point_iter
        cfg.ambient_temp cfg.pure_losses cfg.pure_rth 10
          cfg.max_conductor_temp)) = _
  rw [hL, except_bind_ok, hp]

/-- Witness for C6 at a one-shell configuration with a lossless
conductor material (zero resistivity, hence zero losses). -/
theorem C6_monotone_profile_witness :
    ∃ p, cfg_c6.calculate_temperature_profile = .ok p ∧
      List.Chain' (fun a b : ℝ × ℝ × String => b.2.1 ≤ a.2.1) p := by
  refine C6_monotone_profile cfg_c6 example_shell [] rfl ?_ ?_ ?_
  · intro l hl
    simp only [cfg_c6, List.mem_singleton] at hl
    subst hl
    refine ⟨by norm_num [example_shell], by norm_num [example_shell],
      by norm_num [example_shell]⟩
  · intro l hl
    simp only [cfg_c6, List.not_mem_nil] at hl
  · intro t L h
    rw [show cfg_c6.calculate_conductor_losses t =
        .ok (cfg_c6.current ^ 2 * example_shell.get_electrical_resistance 1 t)
      from rfl, elec_example_shell] at h
    simp only [mul_zero, Except.ok.injEq] at h
    rw [← h]

/-!
Solver evaluation lemmas for configurations with temperature-independent
losses (temperature coefficient 0): the iteration then settles after at
most two steps, either breaking immediately (returning the start value
`max_conductor_temp`) or after one update (returning the fixed point).
-/

theorem solver_const_break (cfg : CableConfiguration) (L R : ℝ)
    (hL : ∀ t, cfg.calculate_conductor_losses t = .ok L)
    (hR : cfg.get_total_thermal_resistance = .ok R)
    (hnear : |cfg.ambient_temp + L * R - cfg.max_conductor_temp| < 0.1) :
    cfg.calculate_conductor_temperature = .ok ⟨cfg.max_conductor_temp, L, R, 1⟩ := by
  rw [CableConfiguration.calculate_conductor_temperature,
    show (10 : ℕ) = 9 + 1 from rfl, CableConfiguration.temp_loop,
    hL, except_bind_ok, hR, except_bind_ok, if_pos hnear]

theorem solver_const_two (cfg : CableConfiguration) (L R : ℝ)
    (hL : ∀ t, cfg.calculate_conductor_losses t = .ok L)
    (hR : cfg.get_total_thermal_resistance = .ok R)
    (hfar : ¬ |cfg.ambient_temp + L * R - cfg.max_conductor_temp| < 0.1) :
    cfg.calculate_conductor_temperature =
      .ok ⟨cfg.ambient_temp + L * R, L, R, 2⟩ := by
  rw [CableConfiguration.calculate_conductor_temperature,
    show (10 : ℕ) = 9 + 1 from rfl, CableConfiguration.temp_loop,
    hL, except_bind_ok, hR, except_bind_ok, if_neg hfar,
    show (9 : ℕ) = 8 + 1 from rfl, CableConfiguration.temp_loop,
    hL, except_bind_ok, hR, except_bind_ok, if_pos (by
      rw [sub_self, abs_zero]
      norm_num)]

theorem losses_const_alpha0 (cfg : CableConfiguration) (rho : ℝ)
    (hrho : 0 < rho) (sh : List CableLayer)
    (hl : cfg.layers = example_conductor rho 0 :: sh) :
    ∀ t, cfg.calculate_conductor_losses t =
      .ok (cfg.current ^ 2 * (rho / Real.pi)) := by
  intro t
  rw [calculate_conductor_losses_eq cfg _ sh hl t,
    CableConfiguration.pure_losses, hl, List.headI_cons,
    elec_example_conductor rho 0 hrho 1 t]
  congr 1
  norm_num

theorem trp_example_shell_thin :
    thermal_resistance_pure example_shell_thin =
      Real.log (1001 / 1000) / (2 * Real.pi) := by
  unfold thermal_resistance_pure example_shell_thin
  rw [if_neg (by norm_num)]
  norm_num

theorem rth_cond_shell (cfg : CableConfiguration) (rho alpha : ℝ)
    (hl : cfg.layers = [example_conductor rho alpha, example_shell])
    (hext : cfg.external_layers = []) :
    cfg.get_total_thermal_resistance = .ok (Real.log 2 / (2 * Real.pi)) := by
  have hcond : ∀ l ∈ cfg.layers ++ cfg.external_layers,
      l.thermal_conductivity ≠ 0 := by
    rw [hl, hext]
    intro l hm
    simp only [List.append_nil, List.mem_cons, List.not_mem_nil,
      or_false, List.mem_singleton] at hm
    rcases hm with rfl | rfl
    · simp [example_conductor]
    · simp [example_shell]
  rw [get_total_thermal_resistance_eq cfg hcond]
  congr 1
  rw [CableConfiguration.pure_rth, hl, hext]
  simp [trp_example_conductor, trp_example_shell]

theorem rth_cond_shell_thin (cfg : CableConfiguration) (rho alpha : ℝ)
    (hl : cfg.layers = [example_conductor rho alpha, example_shell_thin])
    (hext : cfg.external_layers = []) :
    cfg.get_total_thermal_resistance =
      .ok (Real.log (1001 / 1000) / (2 * Real.pi)) := by
  have hcond : ∀ l ∈ cfg.layers ++ cfg.external_layers,
      l.thermal_conductivity ≠ 0 := by
    rw [hl, hext]
    intro l hm
    simp only [List.append_nil, List.mem_cons, List.not_mem_nil,
      or_false, List.mem_singleton] at hm
    rcases hm with rfl | rfl
    · simp [example_conductor]
    · simp [example_shell_thin]
  rw [get_total_thermal_resistance_eq cfg hcond]
  congr 1
  rw [CableConfiguration.pure_rth, hl, hext]
  simp [trp_example_conductor, trp_example_shell_thin]

/-!
Behaviour of the ampacity binary search when every probe overshoots.
-/

theorem max_loop_halving :
    ∀ (n : ℕ) (cfg : CableConfiguration) (hi : ℝ), 0 < hi →
      (∀ I : ℝ, hi / 2 ^ (n + 1) ≤ I →
        ∃ r, ({ cfg with current := I } :
            CableConfiguration).calculate_conductor_temperature = .ok r ∧
          cfg.max_conductor_temp + 0.5 ≤ r.t) →
      CableConfiguration.max_current_loop (n + 1) 0 hi cfg =
        .ok ({ cfg with current := hi / 2 ^ (n + 1) }, false) := by
  intro n
  induction n with
  | zero =>
      intro cfg hi hpos hsolve
      rw [CableConfiguration.max_current_loop, zero_add]
      obtain ⟨r, hr, hge⟩ := hsolve (hi / 2) (by
        rw [pow_one])
      rw [hr, except_bind_ok]
      rw [if_neg (by
        rw [not_lt, le_abs]
        left
        linarith)]
      rw [if_pos (by linarith)]
      rw [CableConfiguration.max_current_loop]
      rw [pow_one]
  | succ n ih =>
      intro cfg hi hpos hsolve
      rw [CableConfiguration.max_current_loop, zero_add]
      obtain ⟨r, hr, hge⟩ := hsolve (hi / 2) (by
        rw [div_le_div_iff (by positivity) (by norm_num)]
        have h2 : (2 : ℝ) ≤ 2 ^ (n + 1 + 1) := by
          calc (2 : ℝ) = 2 ^ 1 := (pow_one 2).symm
          _ ≤ 2 ^ (n + 1 + 1) := by
              refine pow_le_pow_right (by norm_num) (by omega)
        nlinarith)
      rw [hr, except_bind_ok]
      rw [if_neg (by
        rw [not_lt, le_abs]
        left
        linarith)]
      rw [if_pos (by linarith)]
      have hx : hi / 2 / 2 ^ (n + 1) = hi / 2 ^ (n + 1 + 1) := by
        rw [div_div]
        congr 1
        ring
      have := ih ({ cfg with current := hi / 2 } : CableConfiguration)
        (hi / 2) (by positivity) (by
          intro I hI
          rw [hx] at hI
          exact hsolve I hI)
      rw [this, hx]

theorem solve_hot (I : ℝ) (hI : 625 / 65536 ≤ I) :
    ∃ r, ({ cfg_hot with current := I } :
        CableConfiguration).calculate_conductor_temperature = .ok r ∧
      cfg_hot.max_conductor_temp + 0.5 ≤ r.t ∧
      r.t = 20 + I ^ 2 * (1000000000 / Real.pi) *
        (Real.log 2 / (2 * Real.pi)) := by
  have hL := losses_const_alpha0 ({ cfg_hot with current := I }) 1000000000
    (by norm_num) [example_shell] rfl
  have hR := rth_cond_shell ({ cfg_hot with current := I }) 1000000000 0
    rfl rfl
  have hcur : ({ cfg_hot with current := I } : CableConfiguration).current = I :=
    rfl
  rw [hcur] at hL
  have hI2 : (390625 / 4294967296 : ℝ) ≤ I ^ 2 := by
    have h0 : (0 : ℝ) ≤ 625 / 65536 := by norm_num
    have := pow_le_pow_left h0 hI 2
    calc (390625 / 4294967296 : ℝ) = (625 / 65536) ^ 2 := by norm_num
    _ ≤ I ^ 2 := this
  have hlog : (0.6931471803 : ℝ) < Real.log 2 := Real.log_two_gt_d9
  have hπlo : (3.141592 : ℝ) < Real.pi := Real.pi_gt_d6
  have hπhi : Real.pi < 3.141593 := Real.pi_lt_d6
  have hπpos : (0 : ℝ) < Real.pi := Real.pi_pos
  have hbig : (70.5 : ℝ) ≤ I ^ 2 * (1000000000 / Real.pi) *
      (Real.log 2 / (2 * Real.pi)) := by
    have hA : I ^ 2 * (1000000000 / Real.pi) * (Real.log 2 / (2 * Real.pi)) =
        I ^ 2 * 1000000000 * Real.log 2 / (2 * Real.pi ^ 2) := by
      field_simp
      ring
    rw [hA, le_div_iff (by positivity)]
    nlinarith [hI2, hlog, hπlo, hπhi]
  have hfar : ¬ |({ cfg_hot with current := I } :
      CableConfiguration).ambient_temp +
        I ^ 2 * (1000000000 / Real.pi) * (Real.log 2 / (2 * Real.pi)) -
      ({ cfg_hot with current := I } :
        CableConfiguration).max_conductor_temp| < 0.1 := by
    have hamb : ({ cfg_hot with current := I } :
        CableConfiguration).ambient_temp = 20 := rfl
    have hmax : ({ cfg_hot with current := I } :
        CableConfiguration).max_conductor_temp = 90 := rfl
    rw [hamb, hmax, not_lt, le_abs]
    left
    linarith
  have h := solver_const_two ({ cfg_hot with current := I })
    (I ^ 2 * (1000000000 / Real.pi)) (Real.log 2 / (2 * Real.pi)) hL hR hfar
  refine ⟨_, h, ?_, ?_⟩
  · show cfg_hot.max_conductor_temp + 0.5 ≤
      ({ cfg_hot with current := I } : CableConfiguration).ambient_temp +
        I ^ 2 * (1000000000 / Real.pi) * (Real.log 2 / (2 * Real.pi))
    have hamb : ({ cfg_hot with current := I } :
        CableConfiguration).ambient_temp = 20 := rfl
    have hmax : cfg_hot.max_conductor_temp = 90 := rfl
    rw [hamb, hmax]
    linarith
  · show ({ cfg_hot with current := I } : CableConfiguration).ambient_temp +
        I ^ 2 * (1000000000 / Real.pi) * (Real.log 2 / (2 * Real.pi)) = _
    have hamb : ({ cfg_hot with current := I } :
        CableConfiguration).ambient_temp = 20 := rfl
    rw [hamb]

/-!
Claim C5, counterexample part: a configuration on which the ampacity
search exhausts its 20 probes and the returned current, fed back into
the solver, misses `max_conductor_temp` by far more than 0.5 K.
-/

/-- Counterexample for C5: `cfg_hot` satisfies the hypotheses of the
claim (`ambient < max`, and the solved temperature at 10000 A exceeds
`max_conductor_temp`), yet the current returned by
`calculate_max_current`, fed back into
`calculate_conductor_temperature`, gives a temperature at least 0.5 K
away from `max_conductor_temp` (in fact more than 3000 K above it):
every probe overshoots, the bracket halves 20 times, and the tolerance
test never fires. -/
theorem C5_counterexample :
    cfg_hot.ambient_temp < cfg_hot.max_conductor_temp ∧
      (∃ r1, ({ cfg_hot with current := 10000 } :
          CableConfiguration).calculate_conductor_temperature = .ok r1 ∧
        cfg_hot.max_conductor_temp < r1.t) ∧
      ∃ I c2 r, cfg_hot.calculate_max_current = .ok (I, c2) ∧
        ({ cfg_hot with current := I } :
          CableConfiguration).calculate_conductor_temperature = .ok r ∧
        0.5 ≤ |r.t - cfg_hot.max_conductor_temp| := by
  have hmax : cfg_hot.max_conductor_temp = 90 := rfl
  refine ⟨?_, ?_, ?_⟩
  · show (20 : ℝ) < 90
    norm_num
  · obtain ⟨r1, hr1, hge, _⟩ := solve_hot 10000 (by norm_num)
    exact ⟨r1, hr1, by linarith⟩
  · have hloop := max_loop_halving 19 cfg_hot 10000 (by norm_num) (by
      intro I hI
      have he : (10000 : ℝ) / 2 ^ (19 + 1) = 625 / 65536 := by norm_num
      obtain ⟨r, h1, h2, _⟩ := solve_hot I (by linarith [hI, he.ge])
      exact ⟨r, h1, h2⟩)
    obtain ⟨r, hr, hge, _⟩ := solve_hot (10000 / 2 ^ (19 + 1)) (by norm_num)
    refine ⟨10000 / 2 ^ (19 + 1),
      { cfg_hot with current := 10000 / 2 ^ (19 + 1) }, r, ?_, hr, ?_⟩
    · rw [CableConfiguration.calculate_max_current,
        show (20 : ℕ) = 19 + 1 from rfl, hloop, except_bind_ok]
      show (do
          let _ ← ({ cfg_hot with current := 10000 / 2 ^ (19 + 1) } :
            CableConfiguration).calculate_conductor_temperature
          Except.ok (({ cfg_hot with current := 10000 / 2 ^ (19 + 1) } :
              CableConfiguration).current,
            ({ cfg_hot with current := 10000 / 2 ^ (19 + 1) } :
              CableConfiguration))) = _
      rw [hr, except_bind_ok]
    · rw [le_abs]
      left
      linarith

/-!
Soundness of the ampacity search when it breaks on its tolerance test,
and a frame lemma over the binary-search loop.
-/

theorem max_loop_break_props :
    ∀ (n : ℕ) (lo hi : ℝ) (c c2 : CableConfiguration),
      CableConfiguration.max_current_loop n lo hi c = .ok (c2, true) →
      ∃ r, c2.calculate_conductor_temperature = .ok r ∧
        |r.t - c2.max_conductor_temp| < 0.5 := by
  intro n
  induction n with
  | zero =>
      intro lo hi c c2 h
      rw [CableConfiguration.max_current_loop] at h
      simp only [Except.ok.injEq, Prod.mk.injEq] at h
      exact absurd h.2 (by simp)
  | succ n ih =>
      intro lo hi c c2 h
      rw [CableConfiguration.max_current_loop] at h
      cases hs : ({ c with current := (lo + hi) / 2 } :
          CableConfiguration).calculate_conductor_temperature with
      | error e =>
          rw [hs, except_bind_error] at h
          exact Except.noConfusion h
      | ok r =>
          rw [hs, except_bind_ok] at h
          by_cases hc : |r.t - ({ c with current := (lo + hi) / 2 } :
              CableConfiguration).max_conductor_temp| < 0.5
          · rw [if_pos hc] at h
            simp only [Except.ok.injEq, Prod.mk.injEq] at h
            obtain ⟨hcfg, _⟩ := h
            subst hcfg
            exact ⟨r, hs, hc⟩
          · rw [if_neg hc] at h
            by_cases hgt : ({ c with current := (lo + hi) / 2 } :
                CableConfiguration).max_conductor_temp < r.t
            · rw [if_pos hgt] at h
              exact ih _ _ _ _ h
            · rw [if_neg hgt] at h
              exact ih _ _ _ _ h

theorem max_loop_frame :
    ∀ (n : ℕ) (lo hi : ℝ) (c c2 : CableConfiguration) (b : Bool),
      CableConfiguration.max_current_loop n lo hi c = .ok (c2, b) →
      c2.name = c.name ∧ c2.layers = c.layers ∧
        c2.external_layers = c.external_layers ∧
        c2.ambient_temp = c.ambient_temp ∧
        c2.max_conductor_temp = c.max_conductor_temp := by
  intro n
  induction n with
  | zero =>
      intro lo hi c c2 b h
      rw [CableConfiguration.max_current_loop] at h
      simp only [Except.ok.injEq, Prod.mk.injEq] at h
      obtain ⟨hcfg, _⟩ := h
      subst hcfg
      exact ⟨rfl, rfl, rfl, rfl, rfl⟩
  | succ n ih =>
      intro lo hi c c2 b h
      rw [CableConfiguration.max_current_loop] at h
      cases hs : ({ c with current := (lo + hi) / 2 } :
          CableConfiguration).calculate_conductor_temperature with
      | error e =>
          rw [hs, except_bind_error] at h
          exact Except.noConfusion h
      | ok r =>
          rw [hs, except_bind_ok] at h
          by_cases hc : |r.t - ({ c with current := (lo + hi) / 2 } :
              CableConfiguration).max_conductor_temp| < 0.5
          · rw [if_pos hc] at h
            simp only [Except.ok.injEq, Prod.mk.injEq] at h
            obtain ⟨hcfg, _⟩ := h
            subst hcfg
            exact ⟨rfl, rfl, rfl, rfl, rfl⟩
          · rw [if_neg hc] at h
            by_cases hgt : ({ c with current := (lo + hi) / 2 } :
                CableConfiguration).max_conductor_temp < r.t
            · rw [if_pos hgt] at h
              have h5 := ih _ _ _ _ _ h
              exact h5
            · rw [if_neg hgt] at h
              have h5 := ih _ _ _ _ _ h
              exact h5

/-- Amended claim C5: WHEN the binary search of `calculate_max_current`
terminates through its tolerance test (some probe achieves
`|T(I) - max_conductor_temp| < 0.5`), the returned current, fed back
into `calculate_conductor_temperature`, yields a conductor temperature
within 0.5 K of `max_conductor_temp`.  (When the 20-probe budget is
exhausted without meeting the tolerance the guarantee fails, see the
counterexample.) -/
theorem C5_amended_feedback (cfg c2 : CableConfiguration)
    (hbreak : CableConfiguration.max_current_loop 20 0 10000 cfg =
      .ok (c2, true)) :
    ∃ r, cfg.calculate_max_current = .ok (c2.current, c2) ∧
      c2.calculate_conductor_temperature = .ok r ∧
      |r.t - cfg.max_conductor_temp| < 0.5 := by
  obtain ⟨r, hr, hlt⟩ := max_loop_break_props 20 0 10000 cfg c2 hbreak
  have hframe := max_loop_frame 20 0 10000 cfg c2 true hbreak
  refine ⟨r, ?_, hr, ?_⟩
  · rw [CableConfiguration.calculate_max_current, hbreak, except_bind_ok]
    show (do
        let _ ← c2.calculate_conductor_temperature
        Except.ok (c2.current, c2)) = _
    rw [hr, except_bind_ok]
  · rw [← hframe.2.2.2.2]
    exact hlt

/-!
Break trajectory of `cfg_break`: at the first probe current 5000 A the
temperature update lands within the 0.1 K tolerance of the start value
90, so the inner solver returns 90 immediately and the binary search
breaks at its first probe.
-/

theorem solve_break_first_probe :
    ({ cfg_break with current := 5000 } :
        CableConfiguration).calculate_conductor_temperature =
      .ok ⟨90, 5000 ^ 2 * (0.0553 / Real.pi),
        Real.log (1001 / 1000) / (2 * Real.pi), 1⟩ := by
  have hL := losses_const_alpha0 ({ cfg_break with current := 5000 }) 0.0553
    (by norm_num) [example_shell_thin] rfl
  have hR := rth_cond_shell_thin ({ cfg_break with current := 5000 }) 0.0553 0
    rfl rfl
  have hcur : ({ cfg_break with current := 5000 } :
      CableConfiguration).current = 5000 := rfl
  rw [hcur] at hL
  have h1 : (0 : ℝ) < 1001 / 1000 := by norm_num
  have hlo : (1 / 1001 : ℝ) ≤ Real.log (1001 / 1000) := by
    have h := Real.one_sub_inv_le_log_of_pos h1
    have he : (1 : ℝ) - (1001 / 1000)⁻¹ = 1 / 1001 := by norm_num
    linarith
  have hhi : Real.log (1001 / 1000) ≤ 1 / 1000 := by
    have h := Real.log_le_sub_one_of_pos h1
    have he : (1001 / 1000 : ℝ) - 1 = 1 / 1000 := by norm_num
    linarith
  have hπlo : (3.141592 : ℝ) < Real.pi := Real.pi_gt_d6
  have hπhi : Real.pi < 3.141593 := Real.pi_lt_d6
  have hπpos : (0 : ℝ) < Real.pi := Real.pi_pos
  have hv : (5000 : ℝ) ^ 2 * (0.0553 / Real.pi) *
      (Real.log (1001 / 1000) / (2 * Real.pi)) =
      1382500 * Real.log (1001 / 1000) / (2 * Real.pi ^ 2) := by
    field_simp
    ring
  have hnear : |({ cfg_break with current := 5000 } :
      CableConfiguration).ambient_temp +
        5000 ^ 2 * (0.0553 / Real.pi) *
          (Real.log (1001 / 1000) / (2 * Real.pi)) -
      ({ cfg_break with current := 5000 } :
        CableConfiguration).max_conductor_temp| < 0.1 := by
    have hamb : ({ cfg_break with current := 5000 } :
        CableConfiguration).ambient_temp = 20 := rfl
    have hmax : ({ cfg_break with current := 5000 } :
        CableConfiguration).max_conductor_temp = 90 := rfl
    rw [hamb, hmax, hv]
    have hlt : 1382500 * Real.log (1001 / 1000) / (2 * Real.pi ^ 2) < 70.1 := by
      rw [div_lt_iff (by positivity)]
      nlinarith
    have hgt : (69.9 : ℝ) < 1382500 * Real.log (1001 / 1000) /
        (2 * Real.pi ^ 2) := by
      rw [lt_div_iff (by positivity)]
      nlinarith
    rw [abs_lt]
    constructor <;> linarith
  exact solver_const_break ({ cfg_break with current := 5000 })
    (5000 ^ 2 * (0.0553 / Real.pi))
    (Real.log (1001 / 1000) / (2 * Real.pi)) hL hR hnear

theorem max_loop_break_cfg_break :
    CableConfiguration.max_current_loop 20 0 10000 cfg_break =
      .ok ({ cfg_break with current := 5000 }, true) := by
  rw [show (20 : ℕ) = 19 + 1 from rfl, CableConfiguration.max_current_loop,
    zero_add, show (10000 : ℝ) / 2 = 5000 by norm_num,
    solve_break_first_probe, except_bind_ok]
  split
  · rfl
  · rename_i hfalse
    exact absurd (show |(90 : ℝ) - 90| < 0.5 from by
      rw [sub_self, abs_zero]
      norm_num) hfalse

/-- Witness for the amended C5 at `cfg_break`: the binary search breaks
at its first probe (5000 A) and feeding the returned current back into
the temperature solver reproduces `max_conductor_temp` within 0.5 K
(here exactly). -/
theorem C5_amended_feedback_witness :
    ∃ r, cfg_break.calculate_max_current =
        .ok (({ cfg_break with current := 5000 } :
          CableConfiguration).current, { cfg_break with current := 5000 }) ∧
      ({ cfg_break with current := 5000 } :
        CableConfiguration).calculate_conductor_temperature = .ok r ∧
      |r.t - cfg_break.max_conductor_temp| < 0.5 :=
  C5_amended_feedback cfg_break { cfg_break with current := 5000 }
    max_loop_break_cfg_break

/-!
Claim C10: mutation / frame behaviour of `calculate_max_current` and
purity of `calculate_conductor_temperature`.
-/

/-- Claim C10: whenever `calculate_max_current` returns `(I, cfg2)`,
the final configuration has `current = I` (the probe value is not
restored) while `name`, `layers`, `external_layers`, `ambient_temp`
and `max_conductor_temp` are unchanged; and the state-threaded
`calculate_conductor_temperature` returns its configuration
unchanged (the method performs no attribute assignment). -/
theorem C10_mutation_frame :
    (∀ (cfg : CableConfiguration) (I : ℝ) (c2 : CableConfiguration),
      cfg.calculate_max_current = .ok (I, c2) →
      c2.current = I ∧ c2.name = cfg.name ∧ c2.layers = cfg.layers ∧
        c2.external_layers = cfg.external_layers ∧
        c2.ambient_temp = cfg.ambient_temp ∧
        c2.max_conductor_temp = cfg.max_conductor_temp) ∧
    ∀ (cfg : CableConfiguration) (r : TempResult) (c2 : CableConfiguration),
      cfg.calculate_conductor_temperature_st = .ok (r, c2) → c2 = cfg := by
  constructor
  · intro cfg I c2 h
    rw [CableConfiguration.calculate_max_current] at h
    cases hp : CableConfiguration.max_current_loop 20 0 10000 cfg with
    | error e =>
        rw [hp, except_bind_error] at h
        exact Except.noConfusion h
    | ok p =>
        obtain ⟨pc, pb⟩ := p
        rw [hp, except_bind_ok] at h
        cases hs : ((pc, pb).1).calculate_conductor_temperature with
        | error e =>
            rw [hs, except_bind_error] at h
            exact Except.noConfusion h
        | ok r =>
            rw [hs, except_bind_ok] at h
            simp only [Except.ok.injEq, Prod.mk.injEq] at h
            obtain ⟨hI, hc⟩ := h
            have hframe := max_loop_frame 20 0 10000 cfg pc pb hp
            refine ⟨?_, ?_, ?_, ?_, ?_, ?_⟩
            · rw [← hc, ← hI]
            · rw [← hc]; exact hframe.1
            · rw [← hc]; exact hframe.2.1
            · rw [← hc]; exact hframe.2.2.1
            · rw [← hc]; exact hframe.2.2.2.1
            · rw [← hc]; exact hframe.2.2.2.2
  · intro cfg r c2 h
    rw [CableConfiguration.calculate_conductor_temperature_st] at h
    cases hs : cfg.calculate_conductor_temperature with
    | error e =>
        rw [hs] at h
        exact Except.noConfusion h
    | ok r2 =>
        rw [hs] at h
        simp only [Except.map, Except.ok.injEq, Prod.mk.injEq] at h
        exact h.2.symm

theorem max_current_cfg_break :
    cfg_break.calculate_max_current =
      .ok (({ cfg_break with current := 5000 } :
        CableConfiguration).current, { cfg_break with current := 5000 }) := by
  rw [CableConfiguration.calculate_max_current, max_loop_break_cfg_break,
    except_bind_ok]
  show (do
      let _ ← ({ cfg_break with current := 5000 } :
        CableConfiguration).calculate_conductor_temperature
      Except.ok (({ cfg_break with current := 5000 } :
          CableConfiguration).current,
        ({ cfg_break with current := 5000 } : CableConfiguration))) = _
  rw [solve_break_first_probe, except_bind_ok]

theorem st_cfg_break :
    ∃ r, cfg_break.calculate_conductor_temperature_st = .ok (r, cfg_break) := by
  have hL := losses_const_alpha0 cfg_break 0.0553 (by norm_num)
    [example_shell_thin] rfl
  have hR := rth_cond_shell_thin cfg_break 0.0553 0 rfl rfl
  have hfar : ¬ |cfg_break.ambient_temp +
      cfg_break.current ^ 2 * (0.0553 / Real.pi) *
        (Real.log (1001 / 1000) / (2 * Real.pi)) -
      cfg_break.max_conductor_temp| < 0.1 := by
    have hamb : cfg_break.ambient_temp = 20 := rfl
    have hmax : cfg_break.max_conductor_temp = 90 := rfl
    have hcur : cfg_break.current = 0 := rfl
    rw [hamb, hmax, hcur]
    have he : (20 : ℝ) + 0 ^ 2 * (0.0553 / Real.pi) *
        (Real.log (1001 / 1000) / (2 * Real.pi)) - 90 = -70 := by
      ring
    rw [he, abs_neg, abs_of_nonneg (by norm_num : (0 : ℝ) ≤ 70)]
    norm_num
  have h := solver_const_two cfg_break
    (cfg_break.current ^ 2 * (0.0553 / Real.pi))
    (Real.log (1001 / 1000) / (2 * Real.pi)) hL hR hfar
  refine ⟨⟨cfg_break.ambient_temp + cfg_break.current ^ 2 * (0.0553 / Real.pi) *
      (Real.log (1001 / 1000) / (2 * Real.pi)),
    cfg_break.current ^ 2 * (0.0553 / Real.pi),
    Real.log (1001 / 1000) / (2 * Real.pi), 2⟩, ?_⟩
  rw [CableConfiguration.calculate_conductor_temperature_st, h]
  rfl

/-- Witness for C10 at `cfg_break`: `calculate_max_current` returns
5000 A with `current` updated to 5000 and all other fields unchanged,
and the state-threaded temperature solver returns the configuration
unchanged. -/
theorem C10_mutation_frame_witness :
    (({ cfg_break with current := 5000 } : CableConfiguration).current =
        ({ cfg_break with current := 5000 } : CableConfiguration).current ∧
      ({ cfg_break with current := 5000 } : CableConfiguration).name =
        cfg_break.name ∧
      ({ cfg_break with current := 5000 } : CableConfiguration).layers =
        cfg_break.layers ∧
      ({ cfg_break with current := 5000 } :
          CableConfiguration).external_layers = cfg_break.external_layers ∧
      ({ cfg_break with current := 5000 } : CableConfiguration).ambient_temp =
        cfg_break.ambient_temp ∧
      ({ cfg_break with current := 5000 } :
          CableConfiguration).max_conductor_temp =
        cfg_break.max_conductor_temp) ∧
    ∃ r c2, cfg_break.calculate_conductor_temperature_st = .ok (r, c2) ∧
      c2 = cfg_break := by
  constructor
  · exact C10_mutation_frame.1 cfg_break _ _ max_current_cfg_break
  · obtain ⟨r, hst⟩ := st_cfg_break
    exact ⟨r, cfg_break, hst, C10_mutation_frame.2 cfg_break r cfg_break hst⟩
